import Mathlib

/-!
Verification model of the new-pallavi-site backend workers:
the content API worker (`src/workers/content-api-worker.js`) and the two
R2 image-uploader worker variants (`src/unnamed/part_001`, `src/unnamed/part_002`).

JSON documents are modelled abstractly: a type `α` together with an encoding
function (`JSON.stringify`), a decoding function (`JSON.parse`) and a
JS-truthiness predicate are supplied as parameters of the handlers, so that
the platform JSON primitives are not re-implemented.  The KV namespace maps
string keys to the raw strings stored in it, exactly as Cloudflare KV does.
Request timestamps in success bodies and HTTP response headers (CORS,
Cache-Control) carry no information the claims mention and are not modelled.
-/

set_option autoImplicit false

namespace PallaviSite

/-- JS truthiness of an optional string (a header value or an env binding):
absent (`null`/`undefined`) and the empty string are falsy. -/
def strTruthy : Option String → Bool
  | none => false
  | some s => s != ""

/-- JS truthiness of the optional `data` field of an update body:
an absent field is falsy, a present value is as truthy as the value. -/
def dataTruthy {α : Type} (truthy : α → Bool) : Option α → Bool
  | none => false
  | some d => truthy d

/-- The KV namespace `CONTENT_STORE`: string keys to raw stored strings. -/
def Store : Type := String → Option String

/-- A store in which no key was ever written. -/
def emptyStore : Store := fun _ => none

/-- Model of `CONTENT_STORE.put(k, v)`: overwrite one key. -/
def kvPut (st : Store) (k v : String) : Store :=
  fun q => if q == k then some v else st q

/-- Deployment configuration of the content worker: the optional
`ADMIN_TOKEN` binding. -/
structure Env where
  ADMIN_TOKEN : Option String

/-- The JSON body of a POST /content/update request; `sec` models the
`section` field (`section` is reserved in Lean).  Absent fields are `none`. -/
structure UpdateBody (α : Type) where
  sec : Option String
  data : Option α

/-- A request to the content worker: method, pathname, the two headers the
worker reads, and the result of `request.json()` (`.error msg` models the
parse exception thrown for a non-JSON body, with `msg` its message). -/
structure ContentRequest (α : Type) where
  method : String
  path : String
  xAdminToken : Option String
  authHeader : Option String
  body : Except String (UpdateBody α)

/-- Bodies of the responses the two workers construct. -/
inductive RespBody (α : Type) where
  | jsonError (error message : String)
  | contentMap (pairs : List (String × α))
  | updateOk (message : String)
  | uploadOk (url filename : String)
  | text (s : String)
  | empty

/-- An HTTP response: status code and body. -/
structure Resp (α : Type) where
  status : Nat
  body : RespBody α

/-- Whether a response body is a JSON object with `error` and `message`
fields. -/
def isJsonError {α : Type} : RespBody α → Bool
  | .jsonError _ _ => true
  | _ => false

/-- The whitelist of section names (content-api-worker.js lines 78 and 169). -/
def validSections : List String := ["general", "about", "events", "gallery", "team"]

/-- Model of the check `h.toLowerCase().startsWith("bearer ")` at
content-api-worker.js line 127, written over the character list. -/
def lowerStartsWithBearer (h : String) : Bool :=
  List.isPrefixOf ("bearer ".data) (h.data.map Char.toLower)

/-- Lines 126-132: strip a case-insensitive `bearer ` scheme prefix
(`authHeader.slice(7)`, written as dropping 7 characters). -/
def stripBearer (h : String) : String :=
  if lowerStartsWithBearer h then ⟨h.data.drop 7⟩ else h

/-- Line 124: `headers.get("x-admin-token") || headers.get("authorization")`,
where the JS `||` skips falsy (absent or empty) values. -/
def headerOr (a b : Option String) : Option String :=
  if strTruthy a then a else if strTruthy b then b else none

/-- Lines 124-132: the token the caller presented, after choosing a header
and stripping a bearer prefix; `none` when neither header is truthy. -/
def providedToken {α : Type} (r : ContentRequest α) : Option String :=
  match headerOr r.xAdminToken r.authHeader with
  | none => none
  | some h => some (stripBearer h)

/-- Lines 135-148: the update request passes authorization iff no admin
token is configured (a falsy `env.ADMIN_TOKEN`), or the provided token is
truthy and equal to the configured one. -/
def authOk {α : Type} (env : Env) (r : ContentRequest α) : Bool :=
  match env.ADMIN_TOKEN with
  | none => true
  | some t =>
    if t == "" then true
    else
      match providedToken r with
      | none => false
      | some p => if p == "" then false else p == t

/-- Line 173: the invalid-section message, the comma-joined whitelist
interpolated after the fixed text. -/
def invalidSectionMessage : String :=
  "Invalid section. Must be one of: " ++ String.intercalate ", " validSections

/-- Line 190: the success message with the section name in single quotes. -/
def updateSuccessMessage (s : String) : String :=
  "Section " ++ String.singleton '\'' ++ s ++ String.singleton '\'' ++ " updated successfully"

/-- Lines 150-212 of `handleUpdateContent`, after the authorization guard:
parse the body (a thrown JSON parse error reaches the catch at line 199 and
becomes a 500 whose message is passed through), reject bodies whose
`section` or `data` field is JS-falsy (line 153, `!body.section ||
!body.data`), reject section names outside the whitelist (line 170), and
otherwise store `JSON.stringify(data)` under the section key (line 184). -/
def processUpdate {α : Type} (encode : α → String) (truthy : α → Bool)
    (body : Except String (UpdateBody α)) (store : Store) : Resp α × Store :=
  match body with
  | .error msg => (⟨500, .jsonError "Internal Server Error" msg⟩, store)
  | .ok b =>
    match b.sec, b.data with
    | some s, some d =>
      if s == "" || !truthy d then
        (⟨400, .jsonError "Bad Request" "Missing required fields: section and data"⟩, store)
      else if !(validSections.contains s) then
        (⟨400, .jsonError "Bad Request" invalidSectionMessage⟩, store)
      else
        (⟨200, .updateOk (updateSuccessMessage s)⟩, kvPut store s (encode d))
    | _, _ =>
      (⟨400, .jsonError "Bad Request" "Missing required fields: section and data"⟩, store)

/-- Model of `handleUpdateContent` (lines 121-213): the authorization guard followed
by the validate-then-put sequence.  Returns the response together with the
resulting state of the KV store. -/
def handleUpdateContent {α : Type} (encode : α → String) (truthy : α → Bool)
    (env : Env) (r : ContentRequest α) (store : Store) : Resp α × Store :=
  if authOk env r then processUpdate encode truthy r.body store
  else (⟨401, .jsonError "Unauthorized" "Missing or invalid admin token"⟩, store)

/-- Model of `CONTENT_STORE.get(k)` with the json type option: `none` for an absent key, the
parsed value otherwise; a stored string the platform parser rejects throws
(modelled as `.error`). -/
def kvGetJson {α : Type} (decode : String → Option α) (st : Store) (k : String) :
    Except String (Option α) :=
  match st k with
  | none => .ok none
  | some raw =>
    match decode raw with
    | some v => .ok (some v)
    | none => .error "SyntaxError: invalid JSON in stored value"

/-- The loop of `handleGetContent` (lines 81-86): read each section key in
order, keep the pairs whose parsed value is JS-truthy (`if (data)`), and
abort on the first read error. -/
def collectContent {α : Type} (decode : String → Option α) (truthy : α → Bool)
    (st : Store) : List String → Except String (List (String × α))
  | [] => .ok []
  | k :: ks =>
    match kvGetJson decode st k with
    | .error e => .error e
    | .ok none => collectContent decode truthy st ks
    | .ok (some v) =>
      match collectContent decode truthy st ks with
      | .error e => .error e
      | .ok rest => .ok (if truthy v then (k, v) :: rest else rest)

/-- Model of `handleGetContent` (lines 75-109): assemble the section map and return
it as a 200 JSON response; the separate empty-object return at lines 88-96
produces the same observable response as `contentMap []`.  A read error
propagates (line 107) to the 500 handler of `fetch`. -/
def handleGetContent {α : Type} (decode : String → Option α) (truthy : α → Bool)
    (store : Store) : Except String (Resp α) :=
  match collectContent decode truthy store validSections with
  | .error e => .error e
  | .ok pairs => .ok ⟨200, .contentMap pairs⟩

/-- The `fetch` dispatcher of the content worker (lines 18-69): OPTIONS
preflight, GET /content, POST /content/update, plain-text 404 otherwise;
a thrown store-read error becomes a 500 JSON error whose message is passed
through.  The Cache-Control decoration of GET responses (lines 32-40) does
not change status or body and is not modelled. -/
def contentFetch {α : Type} (encode : α → String) (decode : String → Option α)
    (truthy : α → Bool) (env : Env) (r : ContentRequest α) (store : Store) :
    Resp α × Store :=
  if r.method == "OPTIONS" then (⟨200, .empty⟩, store)
  else if r.path == "/content" && r.method == "GET" then
    match handleGetContent decode truthy store with
    | .ok resp => (resp, store)
    | .error msg => (⟨500, .jsonError "Internal Server Error" msg⟩, store)
  else if r.path == "/content/update" && r.method == "POST" then
    handleUpdateContent encode truthy env r store
  else (⟨404, .text "Not Found"⟩, store)

/-- A file carried in the `file` form field: original name, declared MIME
type, and binary content (bytes of the array buffer). -/
structure FileData where
  name : String
  type : String
  content : List Nat

/-- A request to the uploader worker: method, pathname, and the result of
`request.formData()` followed by `formData.get("file")` — `.error msg`
models a thrown form-parse error, `.ok none` a form without a `file`
field. -/
structure UploadRequest where
  method : String
  path : String
  form : Except String (Option FileData)

/-- An object stored in the R2 bucket: the `httpMetadata` fields passed to
`put` and the binary content. -/
structure R2Object where
  contentType : Option String
  cacheControl : Option String
  content : List Nat

/-- The R2 bucket binding `IMAGES_BUCKET`. -/
def Bucket : Type := String → Option R2Object

/-- A bucket with no objects. -/
def emptyBucket : Bucket := fun _ => none

/-- Deployment configuration of the part_002 uploader variant. -/
structure UploadEnv where
  R2_PUBLIC_URL : Option String
  CLOUDFLARE_ACCOUNT_ID : Option String

/-- JS `x || dflt` for an optional string binding. -/
def envOrDefault (o : Option String) (dflt : String) : String :=
  match o with
  | some s => if s != "" then s else dflt
  | none => dflt

/-- JS `String.prototype.split` with a dot separator, written over the
character list: an empty input gives one empty chunk, and every dot starts
a new chunk. -/
def splitDot : List Char → List (List Char)
  | [] => [[]]
  | c :: cs =>
    match splitDot cs with
    | [] => [[]]
    | cur :: rest => if c = '.' then [] :: cur :: rest else (c :: cur) :: rest

/-- The `.pop()` of `file.name.split(...)`: the last dot-separated component
of the original filename (the whole name when it has no dot, as in JS). -/
def fileExtension (name : String) : String :=
  ⟨(splitDot name.data).getLastD []⟩

/-- The generated object key (part_001 lines 75-79 and part_002 lines
75-79, identical): `{Date.now()}-{crypto.randomUUID()}.{extension}`, with
the clock value and the random UUID supplied as parameters. -/
def genFilename (ts : Nat) (uuid : String) (name : String) : String :=
  toString ts ++ "-" ++ uuid ++ "." ++ fileExtension name

/-- The cache directive the part_002 variant passes to `put` (line 86). -/
def uploadCacheControl : String := "public, max-age=31536000, immutable"

/-- Model of `handleUpload` from `src/unnamed/part_001` (lines 57-122): 400 when the
form has no `file` field, otherwise put the bytes under the generated key
with only the declared content type as metadata (lines 83-87 — no cache
directive in this variant) and return the fixed placeholder public URL
(line 92).  A thrown form-parse error reaches the catch at line 108 and
becomes a 500 with the message passed through. -/
def handleUpload1 (ts : Nat) (uuid : String) (form : Except String (Option FileData))
    (bucket : Bucket) : Resp Unit × Bucket :=
  match form with
  | .error msg => (⟨500, .jsonError "Internal Server Error" msg⟩, bucket)
  | .ok none => (⟨400, .jsonError "Bad Request" "No file provided"⟩, bucket)
  | .ok (some f) =>
    let filename := genFilename ts uuid f.name
    let bucket' : Bucket := fun k =>
      if k == filename then some ⟨some f.type, none, f.content⟩ else bucket k
    let publicUrl := "https://pub-YOUR-R2-BUCKET-ID.r2.dev/" ++ filename
    (⟨200, .uploadOk publicUrl filename⟩, bucket')

/-- Model of `handleUpload` from `src/unnamed/part_002` (lines 57-129): as in part_001,
but the put also sets the long-lived immutable cache directive (line 86),
and the public URL prefers `env.R2_PUBLIC_URL` (concatenated directly, line
93) and otherwise falls back to a domain derived from
`env.CLOUDFLARE_ACCOUNT_ID` or a placeholder (lines 96-97). -/
def handleUpload2 (env : UploadEnv) (ts : Nat) (uuid : String)
    (form : Except String (Option FileData)) (bucket : Bucket) : Resp Unit × Bucket :=
  match form with
  | .error msg => (⟨500, .jsonError "Internal Server Error" msg⟩, bucket)
  | .ok none => (⟨400, .jsonError "Bad Request" "No file provided"⟩, bucket)
  | .ok (some f) =>
    let filename := genFilename ts uuid f.name
    let bucket' : Bucket := fun k =>
      if k == filename then some ⟨some f.type, some uploadCacheControl, f.content⟩ else bucket k
    let publicUrl :=
      if strTruthy env.R2_PUBLIC_URL then env.R2_PUBLIC_URL.getD "" ++ filename
      else ("https://pub-" ++ envOrDefault env.CLOUDFLARE_ACCOUNT_ID "YOUR-ACCOUNT-ID" ++ ".r2.dev/") ++ filename
    (⟨200, .uploadOk publicUrl filename⟩, bucket')

/-- The `fetch` dispatcher shared by both uploader variants (lines 17-51 of
part_001 and part_002, identical): OPTIONS preflight, every POST goes to the
upload handler, anything else gets a plain-text 405.  The request path is
never consulted. -/
def uploaderFetch1 (ts : Nat) (uuid : String) (r : UploadRequest) (bucket : Bucket) :
    Resp Unit × Bucket :=
  if r.method == "OPTIONS" then (⟨200, .empty⟩, bucket)
  else if r.method == "POST" then handleUpload1 ts uuid r.form bucket
  else (⟨405, .text "Method Not Allowed"⟩, bucket)

/-- The `fetch` dispatcher of the part_002 variant (same shape as
`uploaderFetch1`). -/
def uploaderFetch2 (env : UploadEnv) (ts : Nat) (uuid : String) (r : UploadRequest)
    (bucket : Bucket) : Resp Unit × Bucket :=
  if r.method == "OPTIONS" then (⟨200, .empty⟩, bucket)
  else if r.method == "POST" then handleUpload2 env ts uuid r.form bucket
  else (⟨405, .text "Method Not Allowed"⟩, bucket)

/-- Concrete JSON values, used to instantiate the abstract document type in
witnesses and counterexamples; numbers are modelled as integers. -/
inductive Json where
  | null
  | bool (b : Bool)
  | num (n : Int)
  | str (s : String)
  | arr (elems : List Json)
  | obj (fields : List (String × Json))

/-- JS truthiness of a JSON value: `null`, `false`, `0` and the empty
string are falsy; arrays and objects are truthy. -/
def jsTruthy : Json → Bool
  | .null => false
  | .bool b => b
  | .num n => n != 0
  | .str s => s != ""
  | .arr _ => true
  | .obj _ => true

mutual

/-- A `JSON.stringify`-shaped serializer for the concrete `Json` type,
used only to instantiate the abstract encoding parameter in witnesses and
counterexamples (string escaping is not needed there and is omitted). -/
def jsonEncode : Json → String
  | .null => "null"
  | .bool b => if b then "true" else "false"
  | .num n => toString n
  | .str s => "\x22" ++ s ++ "\x22"
  | .arr es => "[" ++ jsonEncodeList es ++ "]"
  | .obj fs => "\x7b" ++ jsonEncodeFields fs ++ "\x7d"

/-- Comma-separated serialization of the elements of a JSON array. -/
def jsonEncodeList : List Json → String
  | [] => ""
  | [e] => jsonEncode e
  | e :: es => jsonEncode e ++ "," ++ jsonEncodeList es

/-- Comma-separated serialization of the fields of a JSON object. -/
def jsonEncodeFields : List (String × Json) → String
  | [] => ""
  | [(k, v)] => "\x22" ++ k ++ "\x22:" ++ jsonEncode v
  | (k, v) :: fs => "\x22" ++ k ++ "\x22:" ++ jsonEncode v ++ "," ++ jsonEncodeFields fs

end

/-- Fragment of `JSON.parse` restricted to the three keyword literals `true`, `false`
and `null` — a faithful fragment of the platform parser, used to
instantiate the abstract decoding parameter in counterexamples. -/
def decodeBoolNull (s : String) : Option Json :=
  if s == "true" then some (.bool true)
  else if s == "false" then some (.bool false)
  else if s == "null" then some Json.null
  else none

/-- Whether the value stored at a key (if any) is accepted by the decoder;
used as the well-formed-store hypothesis of the read theorems. -/
def storeDecodes {α : Type} (decode : String → Option α) (st : Store) (k : String) : Bool :=
  match st k with
  | none => true
  | some raw => (decode raw).isSome

/-! ### Helper lemmas -/

/-- Every whitelisted section name is a nonempty (hence JS-truthy) string. -/
theorem mem_validSections_ne_empty {s : String} (hs : s ∈ validSections) : s ≠ "" := by
  fin_cases hs <;> decide

/-- Membership in the whitelist computed by `includes`. -/
theorem contains_of_mem_validSections {s : String} (hs : s ∈ validSections) :
    validSections.contains s = true := by
  fin_cases hs <;> decide

/-- Non-membership in the whitelist computed by `includes`. -/
theorem contains_eq_false_of_not_mem {s : String} (hs : s ∉ validSections) :
    validSections.contains s = false := by
  by_contra h
  exact hs (List.mem_of_elem_eq_true (Bool.of_not_eq_false h))

/-- A string with the `Bearer ` scheme prefix is nonempty. -/
theorem bearer_append_ne_empty (t : String) : "Bearer " ++ t ≠ "" := by
  intro h
  have hd : "Bearer ".data ++ t.data = [] := congrArg String.data h
  simp at hd

/-- Stripping the scheme prefix from `Bearer ` followed by a token yields
the token. -/
theorem stripBearer_bearer_append (t : String) : stripBearer ("Bearer " ++ t) = t := by
  unfold stripBearer lowerStartsWithBearer
  have hdata : ("Bearer " ++ t).data = "Bearer ".data ++ t.data := rfl
  rw [hdata, List.map_append]
  have hlow : "Bearer ".data.map Char.toLower = "bearer ".data := by decide
  rw [hlow]
  have hpre : List.isPrefixOf "bearer ".data ("bearer ".data ++ t.data.map Char.toLower) = true := by
    rw [ List.isPrefixOf_iff_prefix]; exact List.prefix_append _ _
  rw [hpre, if_pos rfl]
  have h7 : (7 : Nat) = "Bearer ".data.length := by decide
  rw [h7, List.drop_left]

/-- A header that does not start with the (case-insensitive) scheme prefix
is taken verbatim as the token. -/
theorem stripBearer_of_no_scheme {t : String} (h : lowerStartsWithBearer t = false) :
    stripBearer t = t := by
  unfold stripBearer
  rw [h]
  simp

/-! ### C6: shape of the generated object key and returned fields -/

/-- C6: every successful upload (in either uploader variant) returns a
filename equal to the generated key `{epoch-millis}-{random-uuid}.{ext}`
whose extension is the last dot-component of the original filename (so
`photo.png` gives a filename ending in `.png`), stores the object under
that key, and returns a URL containing the filename. -/
theorem upload_filename_shape (ts : Nat) (uuid : String) (f : FileData)
    (bucket : Bucket) (env : UploadEnv) :
    genFilename ts uuid f.name = toString ts ++ "-" ++ uuid ++ "." ++ fileExtension f.name
    ∧ (∃ pre, genFilename ts uuid f.name = pre ++ ("." ++ fileExtension f.name))
    ∧ (f.name = "photo.png" → ∃ pre, genFilename ts uuid f.name = pre ++ ".png")
    ∧ (∃ url, (handleUpload1 ts uuid (.ok (some f)) bucket).1
          = ⟨200, .uploadOk url (genFilename ts uuid f.name)⟩
        ∧ ((handleUpload1 ts uuid (.ok (some f)) bucket).2 (genFilename ts uuid f.name)).isSome = true
        ∧ ∃ pre, url = pre ++ genFilename ts uuid f.name)
    ∧ (∃ url, (handleUpload2 env ts uuid (.ok (some f)) bucket).1
          = ⟨200, .uploadOk url (genFilename ts uuid f.name)⟩
        ∧ ((handleUpload2 env ts uuid (.ok (some f)) bucket).2 (genFilename ts uuid f.name)).isSome = true
        ∧ ∃ pre, url = pre ++ genFilename ts uuid f.name) := by
  refine ⟨rfl, ⟨toString ts ++ "-" ++ uuid, ?_⟩, ?_, ?_, ?_⟩
  · rw [genFilename, String.append_assoc]
  · intro h
    refine ⟨toString ts ++ "-" ++ uuid, ?_⟩
    have hext : ("." ++ fileExtension "photo.png") = ".png" := by decide
    rw [genFilename, h, String.append_assoc, hext]
  · refine ⟨_, rfl, ?_, ⟨_, rfl⟩⟩
    simp [handleUpload1]
  · refine ⟨_, rfl, ?_, ?_⟩
    · simp [handleUpload2]
    · by_cases hb : strTruthy env.R2_PUBLIC_URL = true
      · exact ⟨env.R2_PUBLIC_URL.getD "", by simp [handleUpload2, hb]⟩
      · refine ⟨"https://pub-" ++ envOrDefault env.CLOUDFLARE_ACCOUNT_ID "YOUR-ACCOUNT-ID" ++ ".r2.dev/", ?_⟩
        simp [handleUpload2, hb]

/-- C6 witness at a concrete upload of `photo.png`. -/
theorem upload_filename_shape_witness :
    genFilename 1700000000000 "abc-123" "photo.png"
      = toString 1700000000000 ++ "-" ++ "abc-123" ++ "." ++ fileExtension "photo.png"
    ∧ (∃ pre, genFilename 1700000000000 "abc-123" "photo.png"
        = pre ++ ("." ++ fileExtension "photo.png"))
    ∧ ("photo.png" = "photo.png" → ∃ pre, genFilename 1700000000000 "abc-123" "photo.png"
        = pre ++ ".png")
    ∧ (∃ url, (handleUpload1 1700000000000 "abc-123"
          (.ok (some ⟨"photo.png", "image/png", [1, 2]⟩)) emptyBucket).1
          = ⟨200, .uploadOk url (genFilename 1700000000000 "abc-123" "photo.png")⟩
        ∧ ((handleUpload1 1700000000000 "abc-123"
            (.ok (some ⟨"photo.png", "image/png", [1, 2]⟩)) emptyBucket).2
            (genFilename 1700000000000 "abc-123" "photo.png")).isSome = true
        ∧ ∃ pre, url = pre ++ genFilename 1700000000000 "abc-123" "photo.png")
    ∧ (∃ url, (handleUpload2 ⟨none, none⟩ 1700000000000 "abc-123"
          (.ok (some ⟨"photo.png", "image/png", [1, 2]⟩)) emptyBucket).1
          = ⟨200, .uploadOk url (genFilename 1700000000000 "abc-123" "photo.png")⟩
        ∧ ((handleUpload2 ⟨none, none⟩ 1700000000000 "abc-123"
            (.ok (some ⟨"photo.png", "image/png", [1, 2]⟩)) emptyBucket).2
            (genFilename 1700000000000 "abc-123" "photo.png")).isSome = true
        ∧ ∃ pre, url = pre ++ genFilename 1700000000000 "abc-123" "photo.png") :=
  upload_filename_shape 1700000000000 "abc-123" ⟨"photo.png", "image/png", [1, 2]⟩
    emptyBucket ⟨none, none⟩

/-! ### C7: metadata written by a successful upload -/

/-- C7 (amended): a successful upload in the part_002 variant stores the
object with the declared content type and the long-lived immutable cache
directive, but the part_001 variant stores it with the content type only
and no cache directive. -/
theorem upload_put_metadata (env : UploadEnv) (ts : Nat) (uuid : String)
    (f : FileData) (bucket : Bucket) :
    (handleUpload2 env ts uuid (.ok (some f)) bucket).2 (genFilename ts uuid f.name)
      = some ⟨some f.type, some uploadCacheControl, f.content⟩
    ∧ (handleUpload1 ts uuid (.ok (some f)) bucket).2 (genFilename ts uuid f.name)
      = some ⟨some f.type, none, f.content⟩ := by
  constructor <;> simp [handleUpload1, handleUpload2]

/-- C7 counterexample: in the part_001 variant the object stored by a
successful upload carries no cache directive (`cacheControl = none`), so
the claim that every successful upload writes a long-lived immutable cache
directive fails. -/
theorem upload_no_cache_directive_cex :
    (handleUpload1 5 "u" (.ok (some ⟨"a.png", "image/png", [7]⟩)) emptyBucket).2
      (genFilename 5 "u" "a.png") = some ⟨some "image/png", none, [7]⟩ := by
  simp [handleUpload1]

/-! ### C8: upload with no file field -/

/-- C8: a parsed form with no `file` field yields a 400 client error and
leaves the bucket exactly as it was, in both uploader variants. -/
theorem upload_missing_file_rejected (ts : Nat) (uuid : String) (env : UploadEnv)
    (bucket : Bucket) :
    handleUpload1 ts uuid (.ok none) bucket
      = (⟨400, .jsonError "Bad Request" "No file provided"⟩, bucket)
    ∧ handleUpload2 env ts uuid (.ok none) bucket
      = (⟨400, .jsonError "Bad Request" "No file provided"⟩, bucket) :=
  ⟨rfl, rfl⟩

/-! ### C10: the uploader dispatch ignores the request path -/

/-- C10: every POST request is dispatched to the upload handler regardless
of its path, and changing only the path of a POST request changes nothing
in the behaviour of either uploader variant. -/
theorem uploader_ignores_path (ts : Nat) (uuid : String) (env : UploadEnv)
    (r : UploadRequest) (bucket : Bucket) (h : r.method = "POST") :
    uploaderFetch1 ts uuid r bucket = handleUpload1 ts uuid r.form bucket
    ∧ uploaderFetch2 env ts uuid r bucket = handleUpload2 env ts uuid r.form bucket
    ∧ (∀ p, uploaderFetch1 ts uuid ⟨r.method, p, r.form⟩ bucket
        = uploaderFetch1 ts uuid r bucket)
    ∧ (∀ p, uploaderFetch2 env ts uuid ⟨r.method, p, r.form⟩ bucket
        = uploaderFetch2 env ts uuid r bucket) := by
  obtain ⟨m, p0, form⟩ := r
  subst h
  exact ⟨rfl, rfl, fun p => rfl, fun p => rfl⟩

/-- C10 witness at a concrete POST request. -/
theorem uploader_ignores_path_witness :
    uploaderFetch1 3 "u" ⟨"POST", "/anything", .ok none⟩ emptyBucket
      = handleUpload1 3 "u" (.ok none) emptyBucket
    ∧ uploaderFetch2 ⟨none, none⟩ 3 "u" ⟨"POST", "/anything", .ok none⟩ emptyBucket
      = handleUpload2 ⟨none, none⟩ 3 "u" (.ok none) emptyBucket
    ∧ (∀ p, uploaderFetch1 3 "u" ⟨"POST", p, .ok none⟩ emptyBucket
        = uploaderFetch1 3 "u" ⟨"POST", "/anything", .ok none⟩ emptyBucket)
    ∧ (∀ p, uploaderFetch2 ⟨none, none⟩ 3 "u" ⟨"POST", p, .ok none⟩ emptyBucket
        = uploaderFetch2 ⟨none, none⟩ 3 "u" ⟨"POST", "/anything", .ok none⟩ emptyBucket) :=
  uploader_ignores_path 3 "u" ⟨none, none⟩ ⟨"POST", "/anything", .ok none⟩ emptyBucket rfl

/-! ### C1: updates to a non-whitelisted section -/

/-- C1: an authorized update request that passes the field-presence check
but names a section outside the whitelist gets a 400 client error whose
message lists all five valid section names, and the store is returned
unchanged (no put happens). -/
theorem update_invalid_section_rejected {α : Type} (encode : α → String)
    (truthy : α → Bool) (env : Env) (r : ContentRequest α) (store : Store)
    (s : String) (d : α)
    (hauth : authOk env r = true)
    (hbody : r.body = .ok ⟨some s, some d⟩)
    (hd : truthy d = true)
    (hs : s ≠ "")
    (hinv : s ∉ validSections) :
    handleUpdateContent encode truthy env r store
      = (⟨400, .jsonError "Bad Request" invalidSectionMessage⟩, store)
    ∧ ∀ v ∈ validSections, ∃ pre post, invalidSectionMessage = pre ++ v ++ post := by
  constructor
  · have hsb : (s == "") = false := beq_false_of_ne hs
    have hc : validSections.contains s = false := contains_eq_false_of_not_mem hinv
    simp [handleUpdateContent, hauth, processUpdate, hbody, hsb, hd, hc, hinv]
  · intro v hv
    fin_cases hv
    · exact ⟨"Invalid section. Must be one of: ", ", about, events, gallery, team", by decide⟩
    · exact ⟨"Invalid section. Must be one of: general, ", ", events, gallery, team", by decide⟩
    · exact ⟨"Invalid section. Must be one of: general, about, ", ", gallery, team", by decide⟩
    · exact ⟨"Invalid section. Must be one of: general, about, events, ", ", team", by decide⟩
    · exact ⟨"Invalid section. Must be one of: general, about, events, gallery, ", "", by decide⟩

/-- C1 witness: updating section `sponsors` on an unauthenticated
deployment is rejected with the listing message and an unchanged store. -/
theorem update_invalid_section_rejected_witness :
    handleUpdateContent jsonEncode jsTruthy ⟨none⟩
      ⟨"POST", "/content/update", none, none, .ok ⟨some "sponsors", some (Json.num 1)⟩⟩
      emptyStore
      = (⟨400, .jsonError "Bad Request" invalidSectionMessage⟩, emptyStore)
    ∧ ∀ v ∈ validSections, ∃ pre post, invalidSectionMessage = pre ++ v ++ post :=
  update_invalid_section_rejected jsonEncode jsTruthy ⟨none⟩
    ⟨"POST", "/content/update", none, none, .ok ⟨some "sponsors", some (Json.num 1)⟩⟩
    emptyStore "sponsors" (Json.num 1) rfl rfl rfl (by decide) (by decide)

/-! ### C5: field-presence validation of the update body -/

/-- C5 (amended): for an authorized update request with a parsed body, the
missing-fields client error is returned exactly when the `section` field is
absent or empty or the `data` field is absent or JS-falsy; a body with a
whitelisted section and a truthy `data` value proceeds to the store write
and succeeds. -/
theorem update_field_validation {α : Type} (encode : α → String) (truthy : α → Bool)
    (env : Env) (r : ContentRequest α) (store : Store) (b : UpdateBody α)
    (hauth : authOk env r = true) (hbody : r.body = .ok b) :
    ((handleUpdateContent encode truthy env r store).1
        = ⟨400, .jsonError "Bad Request" "Missing required fields: section and data"⟩
      ↔ (strTruthy b.sec = false ∨ dataTruthy truthy b.data = false))
    ∧ ∀ s d, b.sec = some s → b.data = some d → s ∈ validSections → truthy d = true →
        handleUpdateContent encode truthy env r store
          = (⟨200, .updateOk (updateSuccessMessage s)⟩, kvPut store s (encode d)) := by
  obtain ⟨os, od⟩ := b
  have hred : handleUpdateContent encode truthy env r store
      = processUpdate encode truthy (.ok ⟨os, od⟩) store := by
    simp [handleUpdateContent, hauth, hbody]
  rw [hred]
  cases os with
  | none =>
    cases od with
    | none =>
      refine ⟨?_, ?_⟩
      · simp [processUpdate, strTruthy, dataTruthy]
      · intro s' d' hs' _ _ _
        exact Option.noConfusion hs'
    | some d =>
      refine ⟨?_, ?_⟩
      · simp [processUpdate, strTruthy, dataTruthy]
      · intro s' d' hs' _ _ _
        exact Option.noConfusion hs'
  | some s =>
    cases od with
    | none =>
      refine ⟨?_, ?_⟩
      · simp [processUpdate, strTruthy, dataTruthy]
      · intro s' d' _ hd' _ _
        exact Option.noConfusion hd'
    | some d =>
      by_cases hse : s = ""
      · subst hse
        refine ⟨?_, ?_⟩
        · simp [processUpdate, strTruthy, dataTruthy]
        · intro s' d' hs' hd' hmem htr
          injection hs' with h1
          subst h1
          exact absurd hmem (by decide)
      · have hsb : (s == "") = false := beq_false_of_ne hse
        by_cases hdt : truthy d = true
        · by_cases hmem : s ∈ validSections
          · have hc : validSections.contains s = true := contains_of_mem_validSections hmem
            refine ⟨?_, ?_⟩
            · simp [processUpdate, strTruthy, dataTruthy, bne, hse, hsb, hdt, hc, hmem]
            · intro s' d' hs' hd' hmem' htr
              injection hs' with h1
              injection hd' with h2
              subst h1
              subst h2
              simp [processUpdate, hsb, hdt, hc, hmem]
          · have hc : validSections.contains s = false := contains_eq_false_of_not_mem hmem
            have hmsg : invalidSectionMessage ≠ "Missing required fields: section and data" := by
              decide
            refine ⟨?_, ?_⟩
            · simp [processUpdate, strTruthy, dataTruthy, bne, hse, hsb, hdt, hc, hmem, hmsg]
            · intro s' d' hs' hd' hmem' htr
              injection hs' with h1
              subst h1
              exact absurd hmem' hmem
        · have hdf : truthy d = false := by
            cases h : truthy d
            · rfl
            · exact absurd h hdt
          refine ⟨?_, ?_⟩
          · simp [processUpdate, strTruthy, dataTruthy, hsb, hdf]
          · intro s' d' hs' hd' hmem' htr
            injection hd' with h2
            subst h2
            exact absurd htr hdt

/-- C5 counterexample: a body with both fields present — section `team`,
`data` the JSON value `false` — is rejected with the missing-fields client
error and no store write, although the claim says it passes validation and
proceeds to the write. -/
theorem update_falsy_data_rejected_cex :
    handleUpdateContent jsonEncode jsTruthy ⟨none⟩
      ⟨"POST", "/content/update", none, none, .ok ⟨some "team", some (Json.bool false)⟩⟩
      emptyStore
      = (⟨400, .jsonError "Bad Request" "Missing required fields: section and data"⟩,
        emptyStore) := by
  rfl

/-- C5 witness: a body with section `team` and the truthy value `2` passes
validation and is written. -/
theorem update_field_validation_witness :
    ((handleUpdateContent jsonEncode jsTruthy ⟨none⟩
        ⟨"POST", "/content/update", none, none, .ok ⟨some "team", some (Json.num 2)⟩⟩
        emptyStore).1
        = ⟨400, .jsonError "Bad Request" "Missing required fields: section and data"⟩
      ↔ (strTruthy (some "team") = false ∨ dataTruthy jsTruthy (some (Json.num 2)) = false))
    ∧ ∀ s d, some "team" = some s → some (Json.num 2) = some d →
        s ∈ validSections → jsTruthy d = true →
        handleUpdateContent jsonEncode jsTruthy ⟨none⟩
          ⟨"POST", "/content/update", none, none, .ok ⟨some "team", some (Json.num 2)⟩⟩
          emptyStore
          = (⟨200, .updateOk (updateSuccessMessage s)⟩, kvPut emptyStore s (jsonEncode d)) :=
  update_field_validation jsonEncode jsTruthy ⟨none⟩
    ⟨"POST", "/content/update", none, none, .ok ⟨some "team", some (Json.num 2)⟩⟩
    emptyStore ⟨some "team", some (Json.num 2)⟩ rfl rfl

/-! ### C2: authorization of update requests -/

/-- C2 (amended): when an admin credential is configured, the worker
compares it against an effective token obtained by taking the truthy one of
the `x-admin-token` and `authorization` headers and stripping a
case-insensitive `bearer ` prefix.  An absent or non-matching effective
token gets a 401 with the store untouched; a matching one passes the
authorization check and the request proceeds to validation and the write.
A correct credential sent as `Authorization: Bearer <token>` always passes;
sent via `x-admin-token` it passes whenever the credential itself does not
begin with the case-insensitive prefix `bearer `. -/
theorem update_auth_check {α : Type} (encode : α → String) (truthy : α → Bool)
    (env : Env) (r : ContentRequest α) (store : Store) (t : String)
    (hT : env.ADMIN_TOKEN = some t) (ht : t ≠ "") :
    (providedToken r ≠ some t →
      handleUpdateContent encode truthy env r store
        = (⟨401, .jsonError "Unauthorized" "Missing or invalid admin token"⟩, store))
    ∧ (providedToken r = some t →
      handleUpdateContent encode truthy env r store = processUpdate encode truthy r.body store)
    ∧ (strTruthy r.xAdminToken = false → r.authHeader = some ("Bearer " ++ t) →
      providedToken r = some t)
    ∧ (r.xAdminToken = some t → lowerStartsWithBearer t = false →
      providedToken r = some t) := by
  have htb : (t == "") = false := beq_false_of_ne ht
  refine ⟨?_, ?_, ?_, ?_⟩
  · intro hne
    have hfalse : authOk env r = false := by
      cases hp : providedToken r with
      | none => simp [authOk, hT, htb, hp]
      | some p =>
        have hpt : (p == t) = false := by
          refine beq_false_of_ne fun hpt => hne ?_
          rw [hp, hpt]
        cases hpe : p == "" <;> simp [authOk, hT, htb, hp, hpt, hpe]
    simp [handleUpdateContent, hfalse]
  · intro heq
    have htrue : authOk env r = true := by
      simp [authOk, hT, htb, heq]
    simp [handleUpdateContent, htrue]
  · intro hx ha
    have hne : strTruthy (some ("Bearer " ++ t)) = true := by
      have hb : (("Bearer " ++ t) == "") = false :=
        beq_false_of_ne (bearer_append_ne_empty t)
      simp [strTruthy, bne, hb]
    simp [providedToken, headerOr, hx, ha, hne, stripBearer_bearer_append]
  · intro hx hnb
    have hne : strTruthy (some t) = true := by
      simp [strTruthy, bne, htb]
    simp [providedToken, headerOr, hx, hne, stripBearer_of_no_scheme hnb]

/-- C2 counterexample: with the credential `bearer x` configured, a request
presenting exactly that credential in the `x-admin-token` header is
rejected with a 401, because the worker strips the case-insensitive
`bearer ` prefix from that header too — so a request carrying the correct
token in the `x-admin-token` header does not always pass the check. -/
theorem update_auth_raw_token_rejected_cex :
    (handleUpdateContent (fun n : Nat => toString n) (fun n => n != 0)
      ⟨some "bearer x"⟩
      ⟨"POST", "/content/update", some "bearer x", none, .ok ⟨some "team", some 1⟩⟩
      emptyStore).1
      = ⟨401, .jsonError "Unauthorized" "Missing or invalid admin token"⟩ := by
  rfl

/-- C2 witness: with credential `secret7`, the bearer-form header passes
the check and the no-token request is rejected. -/
theorem update_auth_check_witness :
    (providedToken (α := Nat)
        ⟨"POST", "/content/update", none, some ("Bearer " ++ "secret7"),
          .ok ⟨some "team", some 5⟩⟩ ≠ some "secret7" →
      handleUpdateContent (fun n : Nat => toString n) (fun n => n != 0) ⟨some "secret7"⟩
        ⟨"POST", "/content/update", none, some ("Bearer " ++ "secret7"),
          .ok ⟨some "team", some 5⟩⟩ emptyStore
        = (⟨401, .jsonError "Unauthorized" "Missing or invalid admin token"⟩, emptyStore))
    ∧ (providedToken (α := Nat)
        ⟨"POST", "/content/update", none, some ("Bearer " ++ "secret7"),
          .ok ⟨some "team", some 5⟩⟩ = some "secret7" →
      handleUpdateContent (fun n : Nat => toString n) (fun n => n != 0) ⟨some "secret7"⟩
        ⟨"POST", "/content/update", none, some ("Bearer " ++ "secret7"),
          .ok ⟨some "team", some 5⟩⟩ emptyStore
        = processUpdate (fun n : Nat => toString n) (fun n => n != 0)
            (.ok ⟨some "team", some 5⟩) emptyStore)
    ∧ (strTruthy (none : Option String) = false →
      (some ("Bearer " ++ "secret7") : Option String) = some ("Bearer " ++ "secret7") →
      providedToken (α := Nat)
        ⟨"POST", "/content/update", none, some ("Bearer " ++ "secret7"),
          .ok ⟨some "team", some 5⟩⟩ = some "secret7")
    ∧ ((none : Option String) = some "secret7" → lowerStartsWithBearer "secret7" = false →
      providedToken (α := Nat)
        ⟨"POST", "/content/update", none, some ("Bearer " ++ "secret7"),
          .ok ⟨some "team", some 5⟩⟩ = some "secret7") :=
  update_auth_check (fun n : Nat => toString n) (fun n => n != 0) ⟨some "secret7"⟩
    ⟨"POST", "/content/update", none, some ("Bearer " ++ "secret7"), .ok ⟨some "team", some 5⟩⟩
    emptyStore "secret7" rfl (by decide)

/-! ### The read loop: totality and membership characterization -/

/-- When every stored value along the key list decodes, the read loop
succeeds, and a pair is in the result exactly when its key is in the list
and its value is the truthy parse of the stored string at that key. -/
theorem collectContent_spec {α : Type} (decode : String → Option α) (truthy : α → Bool)
    (st : Store) :
    ∀ ks : List String, (∀ k ∈ ks, storeDecodes decode st k = true) →
      ∃ pairs, collectContent decode truthy st ks = .ok pairs
        ∧ ∀ k v, ((k, v) ∈ pairs ↔
            k ∈ ks ∧ ∃ raw, st k = some raw ∧ decode raw = some v ∧ truthy v = true) := by
  intro ks
  induction ks with
  | nil =>
    intro _
    exact ⟨[], rfl, by simp⟩
  | cons k ks ih =>
    intro hwf
    have hk : storeDecodes decode st k = true := hwf k (List.mem_cons_self k ks)
    obtain ⟨rest, hrestEq, hrestMem⟩ :=
      ih fun k' hk' => hwf k' (List.mem_cons_of_mem k hk')
    unfold storeDecodes at hk
    cases hstk : st k with
    | none =>
      refine ⟨rest, ?_, ?_⟩
      · simp [collectContent, kvGetJson, hstk, hrestEq]
      · intro k0 v
        rw [hrestMem k0 v]
        constructor
        · rintro ⟨hmem, hP⟩
          exact ⟨List.mem_cons_of_mem k hmem, hP⟩
        · rintro ⟨hmem, raw, hraw, hdec, htr⟩
          rcases List.mem_cons.mp hmem with h | h
          · subst h
            rw [hstk] at hraw
            exact absurd hraw (by simp)
          · exact ⟨h, raw, hraw, hdec, htr⟩
    | some raw =>
      rw [hstk] at hk
      obtain ⟨dv, hdv⟩ := Option.isSome_iff_exists.mp hk
      cases htr : truthy dv with
      | true =>
        refine ⟨(k, dv) :: rest, ?_, ?_⟩
        · simp [collectContent, kvGetJson, hstk, hdv, hrestEq, htr]
        · intro k0 v
          simp only [List.mem_cons]
          constructor
          · rintro (heq | hmem)
            · obtain ⟨h1, h2⟩ := Prod.mk.injEq .. ▸ heq
              subst h1
              subst h2
              exact ⟨Or.inl rfl, raw, hstk, hdv, htr⟩
            · obtain ⟨hm, hP⟩ := (hrestMem k0 v).mp hmem
              exact ⟨Or.inr hm, hP⟩
          · rintro ⟨hmem, raw', hraw', hdec', htr'⟩
            rcases hmem with h | h
            · subst h
              rw [hstk] at hraw'
              injection hraw' with hr
              subst hr
              rw [hdv] at hdec'
              injection hdec' with hv
              subst hv
              exact Or.inl rfl
            · exact Or.inr ((hrestMem k0 v).mpr ⟨h, raw', hraw', hdec', htr'⟩)
      | false =>
        refine ⟨rest, ?_, ?_⟩
        · simp [collectContent, kvGetJson, hstk, hdv, hrestEq, htr]
        · intro k0 v
          rw [hrestMem k0 v]
          constructor
          · rintro ⟨hmem, hP⟩
            exact ⟨List.mem_cons_of_mem k hmem, hP⟩
          · rintro ⟨hmem, raw', hraw', hdec', htr'⟩
            rcases List.mem_cons.mp hmem with h | h
            · subst h
              rw [hstk] at hraw'
              injection hraw' with hr
              subst hr
              rw [hdv] at hdec'
              injection hdec' with hv
              subst hv
              rw [htr] at htr'
              exact absurd htr' (by simp)
            · exact ⟨h, raw', hraw', hdec', htr'⟩

/-! ### C4: domain of the fetch-all mapping -/

/-- C4 (amended): on a store whose stored values all decode, fetch-all
succeeds with a 200 mapping whose entries are exactly the whitelisted
sections whose stored value parses to a JS-truthy JSON value — absent keys
are omitted without error, but so are keys whose stored value parses to a
falsy value; on the empty store the mapping is empty. -/
theorem get_content_domain {α : Type} (decode : String → Option α) (truthy : α → Bool)
    (store : Store)
    (hwf : ∀ k ∈ validSections, storeDecodes decode store k = true) :
    (∃ pairs, handleGetContent decode truthy store = .ok ⟨200, .contentMap pairs⟩
      ∧ ∀ k v, ((k, v) ∈ pairs ↔
          k ∈ validSections ∧ ∃ raw, store k = some raw ∧ decode raw = some v ∧ truthy v = true))
    ∧ handleGetContent decode truthy emptyStore
        = .ok ⟨200, .contentMap ([] : List (String × α))⟩ := by
  constructor
  · obtain ⟨pairs, hEq, hMem⟩ := collectContent_spec decode truthy store validSections hwf
    refine ⟨pairs, ?_, hMem⟩
    simp [handleGetContent, hEq]
  · rfl

/-- C4 witness: on a store holding only `team ↦ "true"`, fetch-all returns
exactly the `team` entry. -/
theorem get_content_domain_witness :
    (∃ pairs, handleGetContent decodeBoolNull jsTruthy (kvPut emptyStore "team" "true")
        = .ok ⟨200, .contentMap pairs⟩
      ∧ ∀ k v, ((k, v) ∈ pairs ↔
          k ∈ validSections ∧ ∃ raw, (kvPut emptyStore "team" "true") k = some raw
            ∧ decodeBoolNull raw = some v ∧ jsTruthy v = true))
    ∧ handleGetContent decodeBoolNull jsTruthy emptyStore
        = .ok ⟨200, .contentMap ([] : List (String × Json))⟩ :=
  get_content_domain decodeBoolNull jsTruthy (kvPut emptyStore "team" "true")
    (by
      intro k hk
      fin_cases hk <;> rfl)

/-- C4 counterexample: the section `team` has a stored value (`"false"`,
which parses to the JSON value `false`), yet fetch-all returns the empty
mapping — so the domain of the result is not the set of whitelisted
sections that have a stored value. -/
theorem get_content_omits_falsy_cex :
    handleGetContent decodeBoolNull jsTruthy (kvPut emptyStore "team" "false")
      = .ok ⟨200, .contentMap []⟩
    ∧ (kvPut emptyStore "team" "false") "team" = some "false"
    ∧ decodeBoolNull "false" = some (Json.bool false) :=
  ⟨rfl, rfl, rfl⟩

/-! ### C3: store-then-fetch round trip -/

/-- C3: after a successful authorized update of a whitelisted section `s`
with a document `d` (on a store whose other values decode), the update
response is the 200 acknowledgment and the store holds the encoding of `d`
at `s`; fetch-all then succeeds and its mapping contains `s` mapped to
exactly `d` and to nothing else.  The decoding hypothesis is the platform
round-trip law `JSON.parse(JSON.stringify(d)) = d`. -/
theorem update_then_get_roundtrip {α : Type} (encode : α → String)
    (decode : String → Option α) (truthy : α → Bool) (env : Env)
    (r : ContentRequest α) (store : Store) (s : String) (d : α)
    (hauth : authOk env r = true)
    (hbody : r.body = .ok ⟨some s, some d⟩)
    (hs : s ∈ validSections)
    (hd : truthy d = true)
    (hcodec : decode (encode d) = some d)
    (hwf : ∀ k ∈ validSections, storeDecodes decode store k = true) :
    handleUpdateContent encode truthy env r store
      = (⟨200, .updateOk (updateSuccessMessage s)⟩, kvPut store s (encode d))
    ∧ ∃ pairs, handleGetContent decode truthy (kvPut store s (encode d))
        = .ok ⟨200, .contentMap pairs⟩
      ∧ (s, d) ∈ pairs
      ∧ ∀ v, (s, v) ∈ pairs → v = d := by
  have hse : s ≠ "" := mem_validSections_ne_empty hs
  have hsb : (s == "") = false := beq_false_of_ne hse
  have hc : validSections.contains s = true := contains_of_mem_validSections hs
  constructor
  · simp [handleUpdateContent, hauth, processUpdate, hbody, hsb, hd, hc, hs]
  · have hput : kvPut store s (encode d) s = some (encode d) := by
      simp [kvPut]
    have hwf' : ∀ k ∈ validSections, storeDecodes decode (kvPut store s (encode d)) k = true := by
      intro k hk
      unfold storeDecodes
      by_cases hks : k = s
      · subst hks
        simp [hput, hcodec]
      · have hkb : (k == s) = false := beq_false_of_ne hks
        have : kvPut store s (encode d) k = store k := by
          simp [kvPut, hkb]
        rw [this]
        have := hwf k hk
        unfold storeDecodes at this
        exact this
    obtain ⟨pairs, hEq, hMem⟩ :=
      collectContent_spec decode truthy (kvPut store s (encode d)) validSections hwf'
    refine ⟨pairs, ?_, ?_, ?_⟩
    · simp [handleGetContent, hEq]
    · exact (hMem s d).mpr ⟨hs, encode d, hput, hcodec, hd⟩
    · intro v hv
      obtain ⟨_, raw, hraw, hdec, _⟩ := (hMem s v).mp hv
      rw [hput] at hraw
      injection hraw with hr
      subst hr
      rw [hcodec] at hdec
      injection hdec with hv'
      exact hv'.symm

/-- C3 witness with the `jsonEncode`/`decodeBoolNull` codec on the truthy
JSON document `true` for section `team`, starting from the empty store. -/
theorem update_then_get_roundtrip_witness :
    handleUpdateContent jsonEncode jsTruthy ⟨none⟩
      ⟨"POST", "/content/update", none, none, .ok ⟨some "team", some (Json.bool true)⟩⟩
      emptyStore
      = (⟨200, .updateOk (updateSuccessMessage "team")⟩,
        kvPut emptyStore "team" (jsonEncode (Json.bool true)))
    ∧ ∃ pairs, handleGetContent decodeBoolNull jsTruthy
        (kvPut emptyStore "team" (jsonEncode (Json.bool true)))
        = .ok ⟨200, .contentMap pairs⟩
      ∧ ("team", Json.bool true) ∈ pairs
      ∧ ∀ v, ("team", v) ∈ pairs → v = Json.bool true :=
  update_then_get_roundtrip jsonEncode decodeBoolNull jsTruthy
    ⟨none⟩ ⟨"POST", "/content/update", none, none, .ok ⟨some "team", some (Json.bool true)⟩⟩
    emptyStore "team" (Json.bool true) rfl rfl (by decide) rfl rfl
    (by
      intro k hk
      fin_cases hk <;> rfl)

/-! ### C9: shape of error responses -/

/-- Every post-authorization update outcome with an error status has a
JSON error body. -/
theorem processUpdate_error_shape {α : Type} (encode : α → String) (truthy : α → Bool)
    (body : Except String (UpdateBody α)) (store : Store) :
    400 ≤ (processUpdate encode truthy body store).1.status →
    isJsonError (processUpdate encode truthy body store).1.body = true := by
  unfold processUpdate
  split
  · intro _
    rfl
  · split
    · split
      · intro _
        rfl
      · split
        · intro _
          rfl
        · intro h
          simp at h
    · intro _
      rfl

/-- Every update outcome with an error status has a JSON error body. -/
theorem handleUpdateContent_error_shape {α : Type} (encode : α → String)
    (truthy : α → Bool) (env : Env) (r : ContentRequest α) (store : Store) :
    400 ≤ (handleUpdateContent encode truthy env r store).1.status →
    isJsonError (handleUpdateContent encode truthy env r store).1.body = true := by
  unfold handleUpdateContent
  cases ha : authOk env r
  · simp [ha, isJsonError]
  · simp only [ha, if_true]
    exact processUpdate_error_shape encode truthy r.body store

/-- A successful fetch-all response has status 200. -/
theorem handleGetContent_ok_shape {α : Type} (decode : String → Option α)
    (truthy : α → Bool) (store : Store) (resp : Resp α)
    (h : handleGetContent decode truthy store = .ok resp) : resp.status = 200 := by
  unfold handleGetContent at h
  cases hc : collectContent decode truthy store validSections with
  | error e =>
    rw [hc] at h
    exact Except.noConfusion h
  | ok pairs =>
    rw [hc] at h
    injection h with h1
    rw [← h1]

/-- Every part_001 upload outcome with an error status has a JSON error
body. -/
theorem handleUpload1_error_shape (ts : Nat) (uuid : String)
    (form : Except String (Option FileData)) (bucket : Bucket) :
    400 ≤ (handleUpload1 ts uuid form bucket).1.status →
    isJsonError (handleUpload1 ts uuid form bucket).1.body = true := by
  unfold handleUpload1
  rcases form with msg | f
  · intro _
    rfl
  · cases f with
    | none => intro _; rfl
    | some f =>
      intro h
      simp at h

/-- Every part_002 upload outcome with an error status has a JSON error
body. -/
theorem handleUpload2_error_shape (env : UploadEnv) (ts : Nat) (uuid : String)
    (form : Except String (Option FileData)) (bucket : Bucket) :
    400 ≤ (handleUpload2 env ts uuid form bucket).1.status →
    isJsonError (handleUpload2 env ts uuid form bucket).1.body = true := by
  unfold handleUpload2
  rcases form with msg | f
  · intro _
    rfl
  · cases f with
    | none => intro _; rfl
    | some f =>
      intro h
      simp at h

/-- C9 (amended): every error response (status at least 400) of the content
worker is a JSON body with `error` and `message` fields except the
plain-text 404 for unmatched routes, and every error response of either
uploader variant is such a JSON body except the plain-text 405 for
non-POST requests. -/
theorem error_responses_are_json {α : Type} (encode : α → String)
    (decode : String → Option α) (truthy : α → Bool) (env : Env) (store : Store)
    (r : ContentRequest α) (env2 : UploadEnv) (ts : Nat) (uuid : String)
    (u : UploadRequest) (bucket : Bucket) :
    (400 ≤ (contentFetch encode decode truthy env r store).1.status →
      isJsonError (contentFetch encode decode truthy env r store).1.body = true
      ∨ (contentFetch encode decode truthy env r store).1 = ⟨404, .text "Not Found"⟩)
    ∧ (400 ≤ (uploaderFetch1 ts uuid u bucket).1.status →
      isJsonError (uploaderFetch1 ts uuid u bucket).1.body = true
      ∨ (uploaderFetch1 ts uuid u bucket).1 = ⟨405, .text "Method Not Allowed"⟩)
    ∧ (400 ≤ (uploaderFetch2 env2 ts uuid u bucket).1.status →
      isJsonError (uploaderFetch2 env2 ts uuid u bucket).1.body = true
      ∨ (uploaderFetch2 env2 ts uuid u bucket).1 = ⟨405, .text "Method Not Allowed"⟩) := by
  refine ⟨?_, ?_, ?_⟩
  · unfold contentFetch
    cases h1 : r.method == "OPTIONS"
    · cases h2 : (r.path == "/content" && r.method == "GET")
      · cases h4 : (r.path == "/content/update" && r.method == "POST")
        · simp [h1, h2, h4]
        · simp only [h1, h2, h4, Bool.false_eq_true, if_false, if_true]
          intro h
          exact Or.inl (handleUpdateContent_error_shape encode truthy env r store h)
      · cases h3 : handleGetContent decode truthy store with
        | ok resp =>
          have h200 := handleGetContent_ok_shape decode truthy store resp h3
          simp [h1, h2, h3, h200]
        | error msg =>
          simp [h1, h2, h3, isJsonError]
    · simp [h1]
  · unfold uploaderFetch1
    cases h5 : u.method == "OPTIONS"
    · cases h6 : u.method == "POST"
      · simp [h5, h6]
      · simp only [h5, h6, Bool.false_eq_true, if_false, if_true]
        intro h
        exact Or.inl (handleUpload1_error_shape ts uuid u.form bucket h)
    · simp [h5]
  · unfold uploaderFetch2
    cases h5 : u.method == "OPTIONS"
    · cases h6 : u.method == "POST"
      · simp [h5, h6]
      · simp only [h5, h6, Bool.false_eq_true, if_false, if_true]
        intro h
        exact Or.inl (handleUpload2_error_shape env2 ts uuid u.form bucket h)
    · simp [h5]

/-- C9 counterexample: a GET request to the uploader worker is answered
with a plain-text 405 Method Not Allowed — an error response that is
neither a JSON `error`/`message` body nor the plain-text 404 the claim
allows as the only exception. -/
theorem uploader_plain_405_cex :
    (uploaderFetch1 0 "u" ⟨"GET", "/upload", .ok none⟩ emptyBucket).1
      = ⟨405, .text "Method Not Allowed"⟩
    ∧ isJsonError ((uploaderFetch1 0 "u" ⟨"GET", "/upload", .ok none⟩ emptyBucket).1).body
      = false
    ∧ (uploaderFetch1 0 "u" ⟨"GET", "/upload", .ok none⟩ emptyBucket).1.status ≠ 404 :=
  ⟨rfl, rfl, by decide⟩

/-- C9 witness: a concrete 400 response of the content worker (invalid
section) is a JSON error body or the 404 text. -/
theorem error_responses_are_json_witness :
    isJsonError ((contentFetch jsonEncode decodeBoolNull jsTruthy ⟨none⟩
        ⟨"POST", "/content/update", none, none, .ok ⟨some "sponsors", some (Json.num 1)⟩⟩
        emptyStore).1).body = true
    ∨ (contentFetch jsonEncode decodeBoolNull jsTruthy ⟨none⟩
        ⟨"POST", "/content/update", none, none, .ok ⟨some "sponsors", some (Json.num 1)⟩⟩
        emptyStore).1 = ⟨404, .text "Not Found"⟩ :=
  (error_responses_are_json jsonEncode decodeBoolNull jsTruthy ⟨none⟩ emptyStore
    ⟨"POST", "/content/update", none, none, .ok ⟨some "sponsors", some (Json.num 1)⟩⟩
    ⟨none, none⟩ 0 "u" ⟨"GET", "/upload", .ok none⟩ emptyBucket).1 (by decide)

end PallaviSite
